/-
Verification of the creature-evolution repository (mass-spring creatures
evolved by a generational genetic algorithm).

The development shallowly embeds the second (authoritative) revision of
src/src/creature.c together with its header (src/unnamed/part_003), and the
genetic engine of src/src/genetic.c / src/unnamed/part_004.  C floats are
embedded as rationals (exact arithmetic); machine randomness (randint and
uniform draws) is passed in explicitly as draw parameters; the square root
and epsilon test of the missing libwes64 vector library are carried in an
environment record.  Division by zero follows the rational convention
(q / 0 = 0); no claim below depends on a zero denominator.
-/
import Mathlib

/- Rational arithmetic is kept kernel-evaluable within this file so that
concrete runs of the embedded code can be checked by decide. -/
attribute [local semireducible] Rat.add Rat.mul Rat.sub Rat.inv

/-! ## Numeric environment

The vector library (vector.h) and the integrator (integral.h) live in the
author's separate libwes64 library, which is not part of src/.  Following
the specification they provide: vector arithmetic, a length (square root),
an epsilon test iszero, and the midpoint integration scheme. -/

/-- Environment for the primitive numeric operations of libwes64:
the square-root used by vector length, and the epsilon of iszero. -/
structure ENV where
  sqrtFn : ℚ → ℚ
  eps : ℚ

/-- Modelled from the spec: iszero tests whether a scalar is within
epsilon of zero (spec 4.1). -/
def iszero (env : ENV) (q : ℚ) : Prop := |q| < env.eps

instance (env : ENV) (q : ℚ) : Decidable (iszero env q) := by
  unfold iszero; infer_instance

/-- Fuel-based integer square root (largest k with k*k <= n), used to build
an exact rational square root for concrete runs. -/
def isqrtLin (n : ℕ) : ℕ :=
  (List.range (n + 1)).foldl (fun acc k => if k * k ≤ n then k else acc) 0

/-- An exact rational square root for concrete runs: exact whenever the
input is the square of a non-negative rational (numerator and denominator
are then perfect squares). -/
def ratSqrt (q : ℚ) : ℚ := (isqrtLin q.num.toNat : ℚ) / (isqrtLin q.den : ℚ)

/-- Concrete environment used for all concrete evaluations: the exact
rational square root and an epsilon of one millionth. -/
def env0 : ENV := { sqrtFn := ratSqrt, eps := 1 / 1000000 }

/-! ## Vector math (modelled from spec 4.1) -/

/-- A 3-component vector of scalars (VECTOR of libwes64). -/
structure VECTOR where
  x : ℚ
  y : ℚ
  z : ℚ

/-- Modelled from the spec: componentwise vector addition. -/
def vector_Add (a b : VECTOR) : VECTOR := ⟨a.x + b.x, a.y + b.y, a.z + b.z⟩

/-- Modelled from the spec: componentwise vector subtraction. -/
def vector_Sub (a b : VECTOR) : VECTOR := ⟨a.x - b.x, a.y - b.y, a.z - b.z⟩

/-- Modelled from the spec: scaling of a vector by a scalar. -/
def vector_Scale (a : VECTOR) (k : ℚ) : VECTOR := ⟨a.x * k, a.y * k, a.z * k⟩

/-- Modelled from the spec: dot product. -/
def vector_Dot (a b : VECTOR) : ℚ := a.x * b.x + a.y * b.y + a.z * b.z

/-- Modelled from the spec: Euclidean length, via the environment's
square root. -/
def vector_Length (env : ENV) (a : VECTOR) : ℚ :=
  env.sqrtFn (a.x * a.x + a.y * a.y + a.z * a.z)

/-- Modelled from the spec: all components within epsilon of zero. -/
def vector_IsZero (env : ENV) (a : VECTOR) : Prop :=
  iszero env a.x ∧ iszero env a.y ∧ iszero env a.z

instance (env : ENV) (a : VECTOR) : Decidable (vector_IsZero env a) := by
  unfold vector_IsZero; infer_instance

/-- The zero vector. -/
def vzero : VECTOR := ⟨0, 0, 0⟩

/-! ## Creature data model (creature.h, revision with energy and a scalar
fitness memo: src/unnamed/part_003) -/

/-- Minimum number of nodes per creature. -/
def MIN_NODES : ℕ := 4

/-- Maximum number of nodes per creature. -/
def MAX_NODES : ℕ := 16

/-- Maximum number of muscles per creature. -/
def MAX_MUSCLES : ℕ := 64

/-- Number of action slots of one cyclic motion. -/
def MAX_ACTIONS : ℕ := 64

/-- Sentinel action value: no muscle toggles (255, an unsigned char). -/
def MUSCLE_NONE : ℕ := 255

/-- Wall-clock duration of one behavior cycle, in seconds. -/
def BEHAVIOR_TIME : ℚ := 1

/-- Duration of one action slot: BEHAVIOR_TIME / MAX_ACTIONS. -/
def ACTION_TIME : ℚ := 1 / 64

/-- Forced time step of discretized updates (creature.c: 0.005). -/
def TIME_STEP : ℚ := 1 / 200

/-- Bounciness as a node hits the ground (creature.c: 0.6). -/
def RESTITUTION : ℚ := 3 / 5

/-- Gravitational acceleration in the Y direction (creature.c: -1.0). -/
def GRAVITY : ℚ := -1

/-- Damping coefficient of the muscle springs (creature.c: 1.5). -/
def DAMPING : ℚ := 3 / 2

/-- Frictional force coefficient of the ground (creature.c: 20.0). -/
def FRICTION : ℚ := 20

/-- Maximum number of mutations applied to a newly bred child. -/
def MAX_MUTATIONS : ℕ := 4

/-- Maximum energy expenditure before energy death (creature.c: 65536). -/
def MAX_ENERGY : ℚ := 65536

/-- Fitness memo sentinel: fitness not yet computed (-1.0). -/
def FITNESS_INVALID : ℚ := -1

/-- Number of selectable mutations (creature.c: N_MUTATIONS is 10, so the
two behavior mutations of the 12-entry enum are never drawn). -/
def N_MUTATIONS : ℕ := 10

/-- A point mass of a creature (NODE). -/
structure NODE where
  initial : VECTOR
  position : VECTOR
  velocity : VECTOR
  acceleration : VECTOR
  friction : ℚ

/-- A damped spring between two nodes (MUSCLE). -/
structure MUSCLE where
  first : ℕ
  second : ℕ
  extended : ℚ
  contracted : ℚ
  strength : ℚ
  isContracted : Bool

/-- One creature (CREATURE).  The fixed-capacity C arrays nodes[MAX_NODES],
muscles[MAX_MUSCLES] and behavior.action[MAX_ACTIONS] are embedded as
total functions from the index; the code only ever touches the indices a
C array holds, and stale tail slots persist exactly as in the C arrays. -/
structure CREATURE where
  nNodes : ℕ
  nMuscles : ℕ
  clock : ℚ
  energy : ℚ
  nodes : ℕ → NODE
  muscles : ℕ → MUSCLE
  behavior : ℕ → ℕ
  fitness : ℚ

/-- Pointwise array write, embedding a C array store a[i] = v. -/
def aset {α : Type} (f : ℕ → α) (i : ℕ) (v : α) : ℕ → α :=
  fun j => if j = i then v else f j

/-- C cast of a real quotient to int: truncation toward zero. -/
def cTrunc (q : ℚ) : ℤ := if q < 0 then -(Int.floor (-q)) else Int.floor q

/-- Exact semantics of C fmod on reals: x - m * trunc (x / m). -/
def fmodQ (x m : ℚ) : ℚ := x - m * (cTrunc (x / m) : ℚ)

/-- Gravity vector (creature.c: GRAVITY_VECTOR). -/
def GRAVITY_VECTOR : VECTOR := ⟨0, GRAVITY, 0⟩

/-! ## Physics step (creature.c: creature_UpdateFull) -/

/-- The normalized direction of a muscle, from its first endpoint to its
second (the code's delta scaled by 1 / length). -/
def muscleDir (env : ENV) (nodes : ℕ → NODE) (m : MUSCLE) : VECTOR :=
  let delta0 := vector_Sub (nodes m.second).position (nodes m.first).position
  vector_Scale delta0 (1 / vector_Length env delta0)

/-- The signed muscle force magnitude of creature_UpdateFull: the spring
term -(strength / target) * (target - length), with target the contracted
or extended length by phase, minus the damping term proportional to the
relative velocity projected on the muscle axis. -/
def muscleForceMag (env : ENV) (nodes : ℕ → NODE) (m : MUSCLE) : ℚ :=
  let delta0 := vector_Sub (nodes m.second).position (nodes m.first).position
  let len := vector_Length env delta0
  let delta := muscleDir env nodes m
  let target := if m.isContracted then m.contracted else m.extended
  let spring := -(m.strength / target) * (target - len)
  spring - DAMPING * (vector_Dot delta (nodes m.first).velocity -
                      vector_Dot delta (nodes m.second).velocity)

/-- Apply a muscle's force to its two endpoint accelerations (added to the
first endpoint, subtracted from the second). -/
def muscleAccel (env : ENV) (m : MUSCLE) (nodes : ℕ → NODE) : ℕ → NODE :=
  let force := vector_Scale (muscleDir env nodes m) (muscleForceMag env nodes m)
  let n1 := aset nodes m.first
    { nodes m.first with
      acceleration := vector_Add (nodes m.first).acceleration force }
  aset n1 m.second
    { n1 m.second with
      acceleration := vector_Sub (n1 m.second).acceleration force }

/-- One iteration of the muscle-force loop of creature_UpdateFull: state
is the node array plus the accumulated energy; a muscle whose strength is
within epsilon of zero is skipped, otherwise its force is applied to the
endpoint accelerations and, while contracting, dt * |force| energy is
spent. -/
def muscleStep (env : ENV) (dt : ℚ) (M : ℕ → MUSCLE) (s : (ℕ → NODE) × ℚ)
    (i : ℕ) : (ℕ → NODE) × ℚ :=
  if iszero env (M i).strength then s
  else
    (muscleAccel env (M i) s.1,
     if (M i).isContracted then s.2 + dt * |muscleForceMag env s.1 (M i)|
     else s.2)

/-- One iteration of the ground-friction loop of creature_UpdateFull. -/
def frictionStep (env : ENV) (nodes : ℕ → NODE) (i : ℕ) : ℕ → NODE :=
  let nd := nodes i
  if ¬ iszero env nd.position.y ∨ iszero env nd.friction then nodes else
  if vector_IsZero env nd.velocity then nodes else
  let fr0 := vector_Scale nd.velocity (-(FRICTION * nd.friction))
  let fr := { fr0 with y := 0 }
  aset nodes i { nd with acceleration := vector_Add nd.acceleration fr }

/-- One iteration of the integration loop of creature_UpdateFull.  The
integrator is the MidpointMethod of libwes64, modelled from the spec
(spec 4.2): the position advances with the half-step velocity, the velocity
with acceleration * dt.  Afterwards the ground clamp snaps a node at or
below the plane back to y = 0 and inverts its vertical velocity scaled by
the restitution coefficient. -/
def integrateStep (env : ENV) (dt : ℚ) (nodes : ℕ → NODE) (i : ℕ) : ℕ → NODE :=
  let nd := nodes i
  let vel := vector_Add nd.velocity (vector_Scale nd.acceleration dt)
  let pos := vector_Add nd.position
      (vector_Scale (vector_Add nd.velocity (vector_Scale nd.acceleration (dt / 2))) dt)
  if iszero env pos.y ∨ pos.y < 0 then
    let pos2 := { pos with y := 0 }
    let vel2 := { vel with y := vel.y * (-RESTITUTION) }
    aset nodes i { nd with position := pos2, velocity := vel2 }
  else
    aset nodes i { nd with position := pos, velocity := vel }

/-- creature_UpdateFull: one raw physics step of the given duration.
Accelerations are reset to gravity, muscle forces and contraction energy
are accumulated, ground friction applies, and every node is integrated and
clamped to the ground plane. -/
def creature_UpdateFull (env : ENV) (c : CREATURE) (dt : ℚ) : CREATURE :=
  let nodes0 : ℕ → NODE := fun i =>
    if i < c.nNodes then { c.nodes i with acceleration := GRAVITY_VECTOR }
    else c.nodes i
  let ms := (List.range c.nMuscles).foldl (muscleStep env dt c.muscles) (nodes0, c.energy)
  let nodes2 := (List.range c.nNodes).foldl (frictionStep env) ms.1
  let nodes3 := (List.range c.nNodes).foldl (integrateStep env dt) nodes2
  { c with nodes := nodes3, energy := ms.2 }

/-- creature_Update: the discretized update, decomposing dt into
trunc (dt / TIME_STEP) full fixed-size steps plus one fmod remainder
step. -/
def creature_Update (env : ENV) (c : CREATURE) (dt : ℚ) : CREATURE :=
  let fullSteps := (cTrunc (dt / TIME_STEP)).toNat
  let remStep := fmodQ dt TIME_STEP
  creature_UpdateFull env
    ((fun a => creature_UpdateFull env a TIME_STEP)^[fullSteps] c) remStep

/-! ## Behavior playback (creature.c: creature_Animate) -/

/-- Flip the contraction flag of muscle a (the action toggle of
creature_Animate). -/
def toggleMuscle (c : CREATURE) (a : ℕ) : CREATURE :=
  let m2 := { c.muscles a with isContracted := ! (c.muscles a).isContracted }
  { c with muscles := aset c.muscles a m2 }

/-- The action loop of creature_Animate.  The C loop runs while the int
counter fullActions is non-negative and decrements it each pass, so a call
entered with counter k performs k + 1 toggle iterations: k full
ACTION_TIME steps and one final timeAfter step. -/
def animLoop (env : ENV) (timeAfter : ℚ) : ℕ → ℕ → CREATURE → CREATURE
  | 0, idx, c =>
    let a := c.behavior idx
    let c1 := if a ≠ MUSCLE_NONE then toggleMuscle c a else c
    if ¬ iszero env timeAfter then
      let c2 := creature_Update env c1 timeAfter
      { c2 with clock := c2.clock + timeAfter }
    else c1
  | (k + 1), idx, c =>
    let a := c.behavior idx
    let c1 := if a ≠ MUSCLE_NONE then toggleMuscle c a else c
    let c2 := creature_Update env c1 ACTION_TIME
    animLoop env timeAfter k ((idx + 1) % MAX_ACTIONS)
      { c2 with clock := c2.clock + ACTION_TIME }

/-- creature_Animate: behavior playback.  If accumulated energy exceeds
MAX_ENERGY all MAX_MUSCLES muscle slots are forced non-contracting and
only the raw discretized update runs (energy death).  Otherwise the call
finishes the current action slot, then alternates action toggles with
full-slot updates and a final remainder update. -/
def creature_Animate (env : ENV) (c : CREATURE) (dt : ℚ) : CREATURE :=
  if c.energy > MAX_ENERGY then
    let relaxed := fun i =>
      if i < MAX_MUSCLES then { c.muscles i with isContracted := false }
      else c.muscles i
    creature_Update env { c with muscles := relaxed } dt
  else
    let timeBefore0 := ACTION_TIME - fmodQ c.clock ACTION_TIME
    let tb := if dt < timeBefore0 then dt else timeBefore0
    let fullActions := if dt < timeBefore0 then 0
      else (cTrunc (dt / ACTION_TIME)).toNat
    let timeAfter := if dt < timeBefore0 then 0
      else fmodQ (c.clock + dt) ACTION_TIME
    let idx0 := (cTrunc (fmodQ c.clock BEHAVIOR_TIME / ACTION_TIME)).toNat
    let c1 := if ¬ iszero env tb then
        let cu := creature_Update env c tb
        { cu with clock := cu.clock + tb }
      else c
    animLoop env timeAfter fullActions idx0 c1

/-! ## Reset and fitness (creature.c: creature_Reset, creature_Fitness) -/

/-- creature_Reset: zero the clock and energy, relax the live muscles, and
restore every live node to its initial position at rest. -/
def creature_Reset (c : CREATURE) : CREATURE :=
  let muscles2 := fun i =>
    if i < c.nMuscles then { c.muscles i with isContracted := false }
    else c.muscles i
  let nodes2 := fun i =>
    if i < c.nNodes then
      { c.nodes i with position := (c.nodes i).initial,
                       velocity := vzero, acceleration := vzero }
    else c.nodes i
  { c with clock := 0, energy := 0, muscles := muscles2, nodes := nodes2 }

/-- creature_Fitness: reset, then return the memoized fitness if it is not
the sentinel, otherwise evaluate and store.  The underlying evaluation
WalkFitness contains a potentially nonterminating rest loop
(while creature_Rest ...), so it is embedded parametrically as W, a
function from the reset creature to the updated creature and its score;
the memoization logic is the code's. -/
def creature_Fitness (W : CREATURE → CREATURE × ℚ) (c : CREATURE) :
    CREATURE × ℚ :=
  if (creature_Reset c).fitness ≠ FITNESS_INVALID then
    (creature_Reset c, (creature_Reset c).fitness)
  else
    ({ (W (creature_Reset c)).1 with fitness := (W (creature_Reset c)).2 },
     (W (creature_Reset c)).2)

/-! ## Generation, mutation and breeding (creature.c) -/

/-- The uniform draws consumed by GenerateNode: a position in the unit
hemisphere box and a friction coefficient. -/
structure NodeDraws where
  px : ℚ
  py : ℚ
  pz : ℚ
  fr : ℚ

/-- GenerateNode: write a fresh node at the given index, with position,
velocity and acceleration initialised and a drawn friction. -/
def GenerateNode (d : NodeDraws) (index : ℕ) (c : CREATURE) : CREATURE :=
  let nd : NODE :=
    { initial := ⟨d.px, d.py, d.pz⟩, position := ⟨d.px, d.py, d.pz⟩,
      velocity := vzero, acceleration := vzero, friction := d.fr }
  { c with nodes := aset c.nodes index nd }

/-- The randint and uniform draws consumed by GenerateMuscle. -/
structure MuscleDraws where
  secondLow : ℕ
  firstHigh : ℕ
  secondHigh : ℕ
  contractedDraw : ℚ
  strengthDraw : ℚ

/-- GenerateMuscle: write a fresh muscle at the given index.  For an index
below nNodes the first endpoint is forced to the index itself and the
second is drawn among the strictly smaller nodes (the connectivity
induction); otherwise both endpoints are drawn among all nodes.  A
self-muscle is remapped to the next node modulo nNodes.  The extended
length is the initial distance between the endpoints; the contracted
length and strength are drawn. -/
def GenerateMuscle (env : ENV) (d : MuscleDraws) (index : ℕ) (c : CREATURE) :
    CREATURE :=
  let fs : ℕ × ℕ :=
    if index < c.nNodes then (index, if 0 < index then d.secondLow else 0)
    else (d.firstHigh, d.secondHigh)
  let f2 := fs.1
  let s0 := fs.2
  let s2 := if f2 = s0 then (s0 + 1) % c.nNodes else s0
  let len := vector_Length env
      (vector_Sub ((c.nodes s2).initial) ((c.nodes f2).initial))
  let m : MUSCLE :=
    { first := f2, second := s2, extended := len,
      contracted := d.contractedDraw, strength := d.strengthDraw,
      isContracted := false }
  { c with muscles := aset c.muscles index m }

/-- FixMuscles: remap every live muscle with an endpoint at or beyond
nNodes by reducing both endpoints modulo nNodes, resolving a resulting
self-muscle to the next node. -/
def FixMuscles (c : CREATURE) : CREATURE :=
  let fix := fun (m : MUSCLE) =>
    if c.nNodes ≤ m.first ∨ c.nNodes ≤ m.second then
      let f2 := m.first % c.nNodes
      let s2 := m.second % c.nNodes
      let s3 := if f2 = s2 then (s2 + 1) % c.nNodes else s2
      { m with first := f2, second := s3 }
    else m
  { c with muscles := fun i =>
      if i < c.nMuscles then fix (c.muscles i) else c.muscles i }

/-- The random draws consumed by one creature_Mutate call: the mutation
selector randint(0, N_MUTATIONS-1), the pre-drawn node, muscle and action
indices, and the per-case value draws. -/
structure MutDraws where
  mutation : ℕ
  nodeIdx : ℕ
  muscleIdx : ℕ
  actionIdx : ℕ
  px : ℚ
  py : ℚ
  pz : ℚ
  frictionDraw : ℚ
  anchorDraw : ℕ
  extendedDraw : ℚ
  contractedDraw : ℚ
  strengthDraw : ℚ
  genNode : NodeDraws
  genMuscle : MuscleDraws
  behaviorMuscle : ℕ

/-- creature_Mutate: apply the drawn mutation.  The switch follows the
12-entry MUTATION enum in code order (NODE_ADD, NODE_REMOVE,
NODE_POSITION, NODE_FRICTION, MUSCLE_ANCHOR, MUSCLE_EXTENDED,
MUSCLE_CONTRACTED, MUSCLE_STRENGTH, MUSCLE_ADD, MUSCLE_REMOVE,
BEHAVIOR_ADD, BEHAVIOR_REMOVE); the code draws the selector from
randint(0, N_MUTATIONS-1) with N_MUTATIONS = 10, so the last two cases are
never selected. -/
def creature_Mutate (env : ENV) (d : MutDraws) (c : CREATURE) : CREATURE :=
  match d.mutation with
  | 0 =>
    if c.nNodes < MAX_NODES then
      { GenerateNode d.genNode c.nNodes c with nNodes := c.nNodes + 1 }
    else c
  | 1 =>
    FixMuscles (if MIN_NODES < c.nNodes then { c with nNodes := c.nNodes - 1 } else c)
  | 2 =>
    let nd2 := { c.nodes d.nodeIdx with initial := (⟨d.px, d.py, d.pz⟩ : VECTOR) }
    { c with nodes := aset c.nodes d.nodeIdx nd2 }
  | 3 =>
    let nd2 := { c.nodes d.nodeIdx with friction := d.frictionDraw }
    { c with nodes := aset c.nodes d.nodeIdx nd2 }
  | 4 =>
    let m := c.muscles d.muscleIdx
    let s2 := if m.first = d.anchorDraw then (d.anchorDraw + 1) % c.nNodes
      else d.anchorDraw
    { c with muscles := aset c.muscles d.muscleIdx { m with second := s2 } }
  | 5 =>
    let m2 := { c.muscles d.muscleIdx with extended := d.extendedDraw }
    { c with muscles := aset c.muscles d.muscleIdx m2 }
  | 6 =>
    let m2 := { c.muscles d.muscleIdx with contracted := d.contractedDraw }
    { c with muscles := aset c.muscles d.muscleIdx m2 }
  | 7 =>
    let m2 := { c.muscles d.muscleIdx with strength := d.strengthDraw }
    { c with muscles := aset c.muscles d.muscleIdx m2 }
  | 8 =>
    if c.nMuscles < MAX_MUSCLES then
      { GenerateMuscle env d.genMuscle c.nMuscles c with nMuscles := c.nMuscles + 1 }
    else c
  | 9 =>
    if c.nNodes < c.nMuscles then { c with nMuscles := c.nMuscles - 1 } else c
  | 10 =>
    { c with behavior := aset c.behavior d.actionIdx d.behaviorMuscle }
  | 11 =>
    { c with behavior := aset c.behavior d.actionIdx MUSCLE_NONE }
  | _ => c

/-- The random draws consumed by one creature_Breed call: the structure
coin, the per-slot inheritance coins (true embeds randint(0,1) == 0), the
behavior crossover point, and the draw packets of the trailing
randint(0, MAX_MUTATIONS) mutations. -/
structure BreedDraws where
  coin : Bool
  nodeCoins : ℕ → Bool
  muscleCoins : ℕ → Bool
  crossover : ℕ
  muts : List MutDraws

/-- The pre-mutation phase of creature_Breed: the child takes its whole
node and muscle count from one parent by a coin flip; each node and muscle
slot is inherited from a parent that has it (muscles arrive relaxed);
FixMuscles repairs endpoints beyond the child's node count; the behavior
is a single-point crossover.  The child is written over the scratch slot
childPrev, whose untouched fields persist. -/
def breedCore (bd : BreedDraws) (mother father childPrev : CREATURE) :
    CREATURE :=
  let nn := if bd.coin then mother.nNodes else father.nNodes
  let nm := if bd.coin then mother.nMuscles else father.nMuscles
  let nodes2 := fun i =>
    if i < nn then
      (if (bd.nodeCoins i = true ∧ i < mother.nNodes) ∨ father.nNodes ≤ i
       then mother.nodes i else father.nodes i)
    else childPrev.nodes i
  let muscles2 := fun i =>
    if i < nm then
      (let src := if (bd.muscleCoins i = true ∧ i < mother.nMuscles) ∨ father.nMuscles ≤ i
         then mother.muscles i else father.muscles i
       { src with isContracted := false })
    else childPrev.muscles i
  let c1 : CREATURE :=
    { childPrev with nNodes := nn, nMuscles := nm, clock := 0,
                     fitness := FITNESS_INVALID, nodes := nodes2, muscles := muscles2 }
  let c2 := FixMuscles c1
  let behavior2 := fun j =>
    if j < bd.crossover then mother.behavior j else father.behavior j
  { c2 with behavior := behavior2 }

/-- creature_Breed: the recombination of breedCore followed by the
trailing randint(0, MAX_MUTATIONS) mutation passes. -/
def creature_Breed (env : ENV) (bd : BreedDraws) (mother father childPrev : CREATURE) :
    CREATURE :=
  bd.muts.foldl (fun a d => creature_Mutate env d a)
    (breedCore bd mother father childPrev)

/-- The random draws consumed by creature_CreateRandom: node and muscle
counts, per-index node and muscle draw packets, and the per-slot action
density choices and muscle draws. -/
structure CreateDraws where
  nNodesDraw : ℕ
  nMusclesDraw : ℕ
  nodeDraws : ℕ → NodeDraws
  muscleDraws : ℕ → MuscleDraws
  actChoice : ℕ → Bool
  actMuscle : ℕ → ℕ

/-- creature_CreateRandom: draw the counts, zero the clock, energy and
fitness memo, generate every live node then every live muscle, and fill
all MAX_ACTIONS behavior slots with either a drawn muscle index (action
density hit) or the MUSCLE_NONE sentinel.  The creature is written over
raw memory prev, whose untouched tail slots persist. -/
def creature_CreateRandom (env : ENV) (cd : CreateDraws) (prev : CREATURE) :
    CREATURE :=
  let c0 : CREATURE :=
    { prev with nNodes := cd.nNodesDraw, nMuscles := cd.nMusclesDraw,
                clock := 0, energy := 0, fitness := FITNESS_INVALID }
  let c1 := (List.range c0.nNodes).foldl
      (fun a i => GenerateNode (cd.nodeDraws i) i a) c0
  let c2 := (List.range c0.nMuscles).foldl
      (fun a i => GenerateMuscle env (cd.muscleDraws i) i a) c1
  { c2 with behavior := fun j =>
      if j < MAX_ACTIONS then
        (if cd.actChoice j then cd.actMuscle j else MUSCLE_NONE)
      else prev.behavior j }

/-! ## Genetic engine (genetic.c)

The ranking structure lives in the missing libshared heap module.
Modelled from the spec: a binary min-heap of (priority, payload) pairs
over the lower-is-better convention -- heap_Top and heap_Pop return the
element with the lowest priority (spec 4.4).  The model keeps the queue as
a list sorted by priority, pushing after existing equal priorities; a
binary heap's tie order among equal priorities is unspecified, and no
theorem below depends on it.

The population buffer is modelled at the slot level, following the
documented contract of Entity ("gets the entity associated with the given
index", indices 0 to populationSize - 1); the byte-level pointer
arithmetic the code actually performs is modelled separately below for
the storage claim. -/

/-- One heap element: fitness priority and slot-index payload. -/
abbrev HEAP := List (ℚ × ℕ)

/-- Modelled from the spec: sorted insertion, placing the new element
after existing elements of equal priority. -/
def hInsert (x : ℚ × ℕ) : HEAP → HEAP
  | [] => [x]
  | y :: ys => if y.1 ≤ x.1 then y :: hInsert x ys else x :: y :: ys

/-- Modelled from the spec: heap_Push inserts a (priority, payload)
pair. -/
def heap_Push (h : HEAP) (payload : ℕ) (priority : ℚ) : HEAP :=
  hInsert (priority, payload) h

/-- The scoring loop of genetic_Generation: each slot's entity is passed
to the fitness callback (which may update the entity in place, e.g. the
creature memo) and its (score, slot) pair is pushed onto the heap. -/
def scoreFold {E : Type} (fitnessF : E → E × ℚ) (s : (ℕ → E) × HEAP) (i : ℕ) :
    (ℕ → E) × HEAP :=
  let r := fitnessF (s.1 i)
  (aset s.1 i r.1, heap_Push s.2 i r.2)

/-- Score every slot of the population: the first phase of
genetic_Generation. -/
def scorePhase {E : Type} (fitnessF : E → E × ℚ) (pop : ℕ → E) (p : ℕ) :
    (ℕ → E) × HEAP :=
  (List.range p).foldl (scoreFold fitnessF) (pop, [])

/-- The breeding loop of genetic_Generation: k pairs are popped from the
fittest end of the heap, and each pair writes two newborns into the
scratch slots n and n + 1 (the callback may read the prior scratch
contents).  An underflowing pop (impossible for a well-formed population)
leaves the state unchanged. -/
def breedPhase {E : Type} (breedF : E → E → E → E → E × E) (pop : ℕ → E) :
    ℕ → ℕ → HEAP → (ℕ → E) → HEAP × (ℕ → E)
  | 0, _, h, nb => (h, nb)
  | (k + 1), n, h, nb =>
    match h with
    | (_, mi) :: (_, fi) :: rest =>
      let r := breedF (pop mi) (pop fi) (nb n) (nb (n + 1))
      breedPhase breedF pop k (n + 2) rest (aset (aset nb n r.1) (n + 1) r.2)
    | _ => (h, nb)

/-- The replacement loop of genetic_Generation: r more individuals are
popped from the heap (now the least-fit remainder, fittest of the
remainder first) and their population slots are overwritten with the
newborns in pop order; the loop also stops early if the heap empties
(the guard of the part_004 revision; it can never fire, since the heap
still holds populationSize - nBreed >= nBreed elements here). -/
def replPhase {E : Type} (nb : ℕ → E) :
    ℕ → ℕ → HEAP → (ℕ → E) → HEAP × (ℕ → E)
  | _, 0, h, pop => (h, pop)
  | n, (r + 1), h, pop =>
    match h with
    | [] => ([], pop)
    | (_, kill) :: rest => replPhase nb (n + 1) r rest (aset pop kill (nb n))

/-- The straggler loop of genetic_Generation: every slot still on the
heap is overwritten with a brand-new random individual (the random
callback overwrites the slot's memory).  Fuel is the heap length. -/
def stragPhase {E : Type} (randomF : E → E) :
    ℕ → HEAP → (ℕ → E) → (ℕ → E)
  | 0, _, pop => pop
  | (_ + 1), [], pop => pop
  | (fuel + 1), (_, idx) :: rest, pop =>
    stragPhase randomF fuel rest (aset pop idx (randomF (pop idx)))

/-- Genetic engine state: the population buffer, the newborn scratch
buffer, and the best-so-far record. -/
structure GENETIC (E : Type) where
  populationSize : ℕ
  entities : ℕ → E
  newborn : ℕ → E
  bestIdx : ℕ
  bestFitness : ℚ

/-- genetic_Generation: score and rank the whole population, record the
top-ranked individual, breed the fittest nBreed = 2*(populationSize/4)
individuals pairwise in fitness order into the scratch buffer, overwrite
the next nBreed popped slots with the newborns one-for-one in pop order,
and randomize any slots still on the heap. -/
def genetic_Generation {E : Type} (fitnessF : E → E × ℚ)
    (breedF : E → E → E → E → E × E) (randomF : E → E) (g : GENETIC E) :
    GENETIC E :=
  let p := g.populationSize
  let s1 := scorePhase fitnessF g.entities p
  let best := s1.2.headD (0, 0)
  let nB := 2 * (p / 4)
  let b2 := breedPhase breedF s1.1 (nB / 2) 0 s1.2 g.newborn
  let r3 := replPhase b2.2 0 nB b2.1 s1.1
  let pop3 := stragPhase randomF r3.1.length r3.1 r3.2
  { g with entities := pop3, newborn := b2.2,
           bestIdx := best.2, bestFitness := best.1 }

/-! ## Byte-level entity addressing (genetic.c: genetic_Entity,
genetic_Index) -/

/-- genetic_Entity as the code computes it: the byte offset, relative to
the entities base pointer, returned for a slot index is
(char *)entities + index, i.e. just the index. -/
def genetic_Entity (index : ℕ) : ℕ := index

/-- genetic_Index as the code computes it: the byte offset of an entity
pointer divided by entitySize (integer division). -/
def genetic_Index (entitySize : ℕ) (offset : ℕ) : ℕ := offset / entitySize

/-- The replacement memcpy at the byte level: entitySize bytes starting
at the destination offset are overwritten from the source. -/
def memcpyBytes (dst len : ℕ) (src : ℕ → ℕ) (mem : ℕ → ℕ) : ℕ → ℕ :=
  fun a => if dst ≤ a ∧ a < dst + len then src (a - dst) else mem a

/-! ## Concrete inputs for the claim instances -/

/-- A blank node: the all-zero record (raw zeroed memory). -/
def blankNode : NODE :=
  { initial := vzero, position := vzero, velocity := vzero,
    acceleration := vzero, friction := 0 }

/-- A blank muscle: the all-zero record (raw zeroed memory). -/
def blankMuscle : MUSCLE :=
  { first := 0, second := 0, extended := 0, contracted := 0, strength := 0,
    isContracted := false }

/-- A blank creature: zeroed raw memory handed to the generators. -/
def blankC : CREATURE :=
  { nNodes := 0, nMuscles := 0, clock := 0, energy := 0,
    nodes := fun _ => blankNode, muscles := fun _ => blankMuscle,
    behavior := fun _ => 0, fitness := 0 }

/-- Concrete creature_CreateRandom draws: 4 nodes (the minimum) at
x = 0, 1, 2, 3 at height 1, friction 1/2; exactly nNodes = 4 muscles, each
drawn with secondLow = 0, contracted 1 and strength 2; an all-no-op
behavior.  Every draw is inside its randint/uniform range. -/
def cd0 : CreateDraws :=
  { nNodesDraw := 4, nMusclesDraw := 4,
    nodeDraws := fun i => { px := (i : ℚ), py := 1, pz := 0, fr := 1 / 2 },
    muscleDraws := fun _ =>
      { secondLow := 0, firstHigh := 0, secondHigh := 0,
        contractedDraw := 1, strengthDraw := 2 },
    actChoice := fun _ => false, actMuscle := fun _ => 0 }

/-- The concrete 4-node, 4-muscle creature produced by
creature_CreateRandom from the draws cd0. -/
def cBase : CREATURE := creature_CreateRandom env0 cd0 blankC

/-- A mutation-draw packet with inert values, specialised per claim. -/
def mdrawsBlank : MutDraws :=
  { mutation := 99, nodeIdx := 0, muscleIdx := 0, actionIdx := 0,
    px := 0, py := 0, pz := 0, frictionDraw := 0, anchorDraw := 0,
    extendedDraw := 0, contractedDraw := 0, strengthDraw := 0,
    genNode := { px := 0, py := 0, pz := 0, fr := 0 },
    genMuscle := { secondLow := 0, firstHigh := 0, secondHigh := 0,
                   contractedDraw := 0, strengthDraw := 0 },
    behaviorMuscle := 0 }

/-- The NODE_ADD mutation draw (selector 0, inside randint(0, 9)). -/
def dNodeAdd : MutDraws :=
  { mdrawsBlank with mutation := 0,
                     genNode := { px := 0, py := 1, pz := 0, fr := 1 } }

/-- cBase after one NODE_ADD mutation. -/
def cAdd : CREATURE := creature_Mutate env0 dNodeAdd cBase

/-- The single node of the chunking counterexample: 1 mm above the ground,
falling at 1 m/s. -/
def bounceNode : NODE :=
  { initial := ⟨0, 1 / 1000, 0⟩, position := ⟨0, 1 / 1000, 0⟩,
    velocity := ⟨0, -1, 0⟩, acceleration := vzero, friction := 0 }

/-- A one-node, zero-muscle creature about to hit the ground. -/
def cBounce : CREATURE :=
  { nNodes := 1, nMuscles := 0, clock := 0, energy := 0,
    nodes := fun _ => bounceNode, muscles := fun _ => blankMuscle,
    behavior := fun _ => 0, fitness := 0 }

/-- cBounce advanced by one creature_Update call of one full TIME_STEP. -/
def c9one : CREATURE := creature_Update env0 cBounce TIME_STEP

/-- cBounce advanced by two creature_Update calls of TIME_STEP / 2. -/
def c9two : CREATURE :=
  creature_Update env0 (creature_Update env0 cBounce (TIME_STEP / 2)) (TIME_STEP / 2)

/-- cBase with a computed fitness memo of 5 (not the sentinel). -/
def cFit : CREATURE := { cBase with fitness := 5 }

/-- A NODE_FRICTION mutation draw (selector 3, inside randint(0, 9)). -/
def dFriction : MutDraws := { mdrawsBlank with mutation := 3, frictionDraw := 1 }

/-- Breeding draws taking the whole structure and every slot from the
mother, crossover at 0 and no trailing mutations. -/
def bdEx : BreedDraws :=
  { coin := true, nodeCoins := fun _ => true, muscleCoins := fun _ => true,
    crossover := 0, muts := [] }

/-- A stale offspring scratch slot holding 7 joules of leftover energy. -/
def prevEx : CREATURE := { blankC with energy := 7 }

/-- Population of four ℚ-entities for the generation run: slot i holds the
value 10 * (i + 1), which is also its fitness score, so the slots are
already ranked 0 best .. 3 worst under lower-is-better. -/
def ex6pop : ℕ → ℚ := fun i => 10 * ((i : ℚ) + 1)

/-- Fitness callback of the generation run: the entity is its own score,
and is returned unchanged. -/
def ex6fit : ℚ → ℚ × ℚ := fun e => (e, e)

/-- Breeding callback of the generation run: every pair produces the
recognizable offspring 100 and 200. -/
def ex6breed : ℚ → ℚ → ℚ → ℚ → ℚ × ℚ := fun _ _ _ _ => (100, 200)

/-- Randomize callback of the generation run: adds 1000 to the slot. -/
def ex6rand : ℚ → ℚ := fun e => e + 1000

/-- The four-slot genetic engine state before the generation. -/
def ex6g : GENETIC ℚ :=
  { populationSize := 4, entities := ex6pop, newborn := fun _ => 0,
    bestIdx := 0, bestFitness := 0 }

/-- The engine state after one genetic_Generation. -/
def ex6out : GENETIC ℚ := genetic_Generation ex6fit ex6breed ex6rand ex6g

/-! ## C1 -/

/-- C1: the claim asserts the spanning invariant (every node index below
nNodes is an endpoint of some muscle below nMuscles) for creature_CreateRandom
output and for every finite sequence of creature_Mutate / creature_Breed.
The code violates it: the NODE_ADD mutation (selector 0, drawn from
randint(0, N_MUTATIONS-1)) generates a fresh node and increments nNodes
without generating any muscle, so the new node is referenced by no muscle.
Concretely, cBase is the 4-node, 4-muscle creature creature_CreateRandom
builds from the in-range draws cd0 (its muscles span all 4 nodes, last
conjunct), and after one NODE_ADD mutation the creature has 5 nodes while
none of its 4 muscles references node index 4. -/
theorem c1_spanning_bug :
    cAdd.nNodes = 5 ∧ cAdd.nMuscles = 4 ∧
    (∀ i, i < cAdd.nMuscles →
      (cAdd.muscles i).first ≠ 4 ∧ (cAdd.muscles i).second ≠ 4) ∧
    (∀ j, j < cBase.nNodes → ∃ i, i < cBase.nMuscles ∧
      ((cBase.muscles i).first = j ∨ (cBase.muscles i).second = j)) := by
  decide

/-! ## C2 -/

/-- C2: the claim asserts slot i of the population sits at byte offset
i * entitySize, so genetic_Index inverts genetic_Entity and slot writes are
disjoint.  The code computes genetic_Entity as base + index (one byte per
slot): with entitySize 2 already, genetic_Index (genetic_Entity 1) is
1 / 2 = 0, not 1, and the entitySize-byte memcpy that overwrites slot 1
during replacement rewrites byte genetic_Entity 0 + 1, which lies inside
the storage the claim assigns to slot 0.  This contradicts the function's
own documentation and its genetic_Index inverse. -/
theorem c2_entity_offset_bug :
    genetic_Index 2 (genetic_Entity 1) = 0 ∧
    genetic_Index 2 (genetic_Entity 1) ≠ 1 ∧
    (genetic_Entity 0 ≤ genetic_Entity 0 + 1 ∧
      genetic_Entity 0 + 1 < genetic_Entity 0 + 2) ∧
    memcpyBytes (genetic_Entity 1) 2 (fun _ => 9) (fun _ => 0)
      (genetic_Entity 0 + 1) = 9 := by
  decide

/-! ## C4 -/

/-- C4: the claim asserts MIN_NODES <= nNodes <= MAX_NODES,
nNodes <= nMuscles <= MAX_MUSCLES and valid distinct muscle endpoints for
creature_CreateRandom output, preserved by every creature_Mutate and
creature_Breed.  The code violates nNodes <= nMuscles: NODE_ADD increments
nNodes without adding a muscle.  Concretely, cBase (4 nodes, 4 muscles,
produced by creature_CreateRandom from in-range draws) satisfies the
bounds, and one NODE_ADD mutation leaves nNodes = 5 > nMuscles = 4. -/
theorem c4_bounds_bug :
    (MIN_NODES ≤ cBase.nNodes ∧ cBase.nNodes ≤ MAX_NODES ∧
      cBase.nNodes ≤ cBase.nMuscles ∧ cBase.nMuscles ≤ MAX_MUSCLES) ∧
    cAdd.nNodes = 5 ∧ cAdd.nMuscles = 4 ∧ ¬ cAdd.nNodes ≤ cAdd.nMuscles := by
  decide

/-! ## Field-preservation helpers -/

/-- Fold preservation: a property stable under every step is stable under
the whole fold. -/
theorem foldl_preserve {α β : Type} (f : α → β → α) (Q : α → Prop)
    (h : ∀ a b, Q a → Q (f a b)) :
    ∀ (l : List β) (a : α), Q a → Q (l.foldl f a) := by
  intro l
  induction l with
  | nil => intro a ha; exact ha
  | cons x xs ih => intro a ha; exact ih _ (h _ _ ha)

/-- creature_Mutate never touches the clock. -/
theorem mutate_clock (env : ENV) (d : MutDraws) (c : CREATURE) :
    (creature_Mutate env d c).clock = c.clock := by
  unfold creature_Mutate
  repeat' split
  all_goals rfl

/-- creature_Mutate never touches the energy field. -/
theorem mutate_energy (env : ENV) (d : MutDraws) (c : CREATURE) :
    (creature_Mutate env d c).energy = c.energy := by
  unfold creature_Mutate
  repeat' split
  all_goals rfl

/-- creature_Mutate never touches the fitness memo. -/
theorem mutate_fitness (env : ENV) (d : MutDraws) (c : CREATURE) :
    (creature_Mutate env d c).fitness = c.fitness := by
  unfold creature_Mutate
  repeat' split
  all_goals rfl

/-- creature_Fitness on a creature whose memo is not the sentinel returns
the reset creature and the cached value, for every evaluation function. -/
theorem fitness_memo_hit (W : CREATURE → CREATURE × ℚ) (c : CREATURE)
    (h : c.fitness ≠ FITNESS_INVALID) :
    creature_Fitness W c = (creature_Reset c, c.fitness) := by
  unfold creature_Fitness
  rw [if_pos (show (creature_Reset c).fitness ≠ FITNESS_INVALID from h)]
  rfl

/-- The creature returned by creature_Fitness carries the returned score
in its memo field. -/
theorem fitness_result_memo (W : CREATURE → CREATURE × ℚ) (c : CREATURE) :
    ((creature_Fitness W c).1).fitness = (creature_Fitness W c).2 := by
  unfold creature_Fitness
  split
  · rfl
  · rfl

/-! ## C3 -/

/-- C3 counterexample: the claim says every creature_Mutate application
resets the fitness memo to the sentinel.  It does not: a NODE_FRICTION
mutation (selector 3) on a creature memoized at 5 leaves the memo at 5,
which is not FITNESS_INVALID. -/
theorem c3_mutate_keeps_memo_cex :
    (creature_Mutate env0 dFriction cFit).fitness = 5 ∧
    (5 : ℚ) ≠ FITNESS_INVALID := by
  decide

/-- C3 amended: creature_Fitness memoizes its result on the creature
record -- when the memo is not the sentinel the call returns the cached
value for every evaluation function (so the simulation is not re-run), and
a second call right after a first call whose result is not the sentinel
again returns the cached pair; creature_Breed always resets the child's
memo to the sentinel; but creature_Mutate leaves the memo unchanged (it
does not reset it). -/
theorem c3_memo_amended :
    (∀ (W W2 : CREATURE → CREATURE × ℚ) (c : CREATURE),
        c.fitness ≠ FITNESS_INVALID →
        creature_Fitness W c = (creature_Reset c, c.fitness) ∧
        creature_Fitness W c = creature_Fitness W2 c) ∧
    (∀ (W W2 : CREATURE → CREATURE × ℚ) (c : CREATURE),
        (creature_Fitness W c).2 ≠ FITNESS_INVALID →
        creature_Fitness W2 (creature_Fitness W c).1 =
          (creature_Reset (creature_Fitness W c).1, (creature_Fitness W c).2)) ∧
    (∀ (env : ENV) (bd : BreedDraws) (m f p : CREATURE),
        (creature_Breed env bd m f p).fitness = FITNESS_INVALID) ∧
    (∀ (env : ENV) (d : MutDraws) (c : CREATURE),
        (creature_Mutate env d c).fitness = c.fitness) := by
  refine ⟨?_, ?_, ?_, ?_⟩
  · intro W W2 c h
    exact ⟨fitness_memo_hit W c h,
      (fitness_memo_hit W c h).trans (fitness_memo_hit W2 c h).symm⟩
  · intro W W2 c h
    have hm : ((creature_Fitness W c).1).fitness ≠ FITNESS_INVALID := by
      rw [fitness_result_memo]; exact h
    have := fitness_memo_hit W2 (creature_Fitness W c).1 hm
    rw [this, fitness_result_memo]
  · intro env bd m f p
    exact foldl_preserve _ (fun x => x.fitness = FITNESS_INVALID)
      (fun a b hb => (mutate_fitness env b a).trans hb) bd.muts
      (breedCore bd m f p) rfl
  · intro env d c
    exact mutate_fitness env d c

/-- C3 amended witness: the memoization branch at the concrete memoized
creature cFit (memo 5). -/
theorem c3_memo_amended_witness :
    cFit.fitness ≠ FITNESS_INVALID ∧
    creature_Fitness (fun a => (a, 0)) cFit = (creature_Reset cFit, cFit.fitness) := by
  refine ⟨by decide, ?_⟩
  exact (c3_memo_amended.1 (fun a => (a, 0)) (fun a => (a, 1)) cFit (by decide)).1

/-! ## C5 -/

/-- C5 counterexample: the claim says the child of creature_Breed finishes
with energy 0 regardless of the prior scratch contents.  It does not:
breeding two copies of cBase into a scratch slot holding energy 7 leaves
the child's energy at 7. -/
theorem c5_breed_energy_cex :
    (creature_Breed env0 bdEx cBase cBase prevEx).energy = 7 ∧
    (7 : ℚ) ≠ 0 := by
  decide

/-- C5 amended: the child written by creature_Breed finishes with
clock = 0 and its fitness memo set to the sentinel, for every pair of
parents and any prior scratch contents; the energy field however is not
reset -- it keeps whatever value the scratch slot held before the call. -/
theorem c5_breed_child_state (env : ENV) (bd : BreedDraws)
    (mother father childPrev : CREATURE) :
    (creature_Breed env bd mother father childPrev).clock = 0 ∧
    (creature_Breed env bd mother father childPrev).fitness = FITNESS_INVALID ∧
    (creature_Breed env bd mother father childPrev).energy = childPrev.energy := by
  refine ⟨?_, ?_, ?_⟩
  · exact foldl_preserve _ (fun x => x.clock = 0)
      (fun a b hb => (mutate_clock env b a).trans hb) bd.muts
      (breedCore bd mother father childPrev) rfl
  · exact foldl_preserve _ (fun x => x.fitness = FITNESS_INVALID)
      (fun a b hb => (mutate_fitness env b a).trans hb) bd.muts
      (breedCore bd mother father childPrev) rfl
  · exact foldl_preserve _ (fun x => x.energy = childPrev.energy)
      (fun a b hb => (mutate_energy env b a).trans hb) bd.muts
      (breedCore bd mother father childPrev) rfl

/-! ## C9 -/

/-- Truncation toward zero agrees with the floor on non-negative input. -/
theorem cTrunc_of_nonneg (q : ℚ) (h : 0 ≤ q) : cTrunc q = ⌊q⌋ := by
  unfold cTrunc
  rw [if_neg (not_lt.2 h)]

/-- A fold over a replicated list is an iterate. -/
theorem foldl_replicate {α β : Type} (f : α → β → α) (b : β) :
    ∀ (n : ℕ) (a : α),
      (List.replicate n b).foldl f a = (fun x => f x b)^[n] a := by
  intro n
  induction n with
  | zero => intro a; rfl
  | succ k ih =>
    intro a
    rw [List.replicate_succ, List.foldl_cons, ih, Function.iterate_succ_apply]

set_option maxRecDepth 4000 in
/-- C9 counterexample: the claim says one creature_Update of duration D
produces the same final state (within floating-point tolerance) as two
creature_Update calls of D / 2.  Even in this exact-arithmetic embedding
the two chunkings apply different sub-step sequences and give grossly
different states: for the one-node creature cBounce falling onto the
ground and D = TIME_STEP, the single call ends with vertical velocity
-1809/5000 (the remainder sub-step of length 0 re-applies the ground
restitution) while the two half calls end with 599/1000; the two differ
by more than 1/2, far beyond any rounding tolerance. -/
theorem c9_chunking_cex :
    (c9one.nodes 0).velocity.y = -1809/5000 ∧
    (c9two.nodes 0).velocity.y = 599/1000 ∧
    (c9one.nodes 0).velocity.y ≠ (c9two.nodes 0).velocity.y ∧
    1/2 < |(c9one.nodes 0).velocity.y - (c9two.nodes 0).velocity.y| := by
  decide

/-- C9 amended: a single creature_Update call of duration dt >= 0 applies
exactly floor (dt / TIME_STEP) full fixed-size sub-steps followed by one
fmod remainder sub-step; the decomposition is per call, so one call of D
and two calls of D / 2 apply different sub-step sequences and in general
end in different states even in exact arithmetic (see the counterexample),
matching the non-reproducibility across chunkings that spec 4.2 itself
concedes. -/
theorem c9_update_decomposition (env : ENV) (c : CREATURE) (dt : ℚ)
    (h : 0 ≤ dt) :
    creature_Update env c dt =
      (List.replicate (⌊dt / TIME_STEP⌋).toNat TIME_STEP ++
        [dt - TIME_STEP * (⌊dt / TIME_STEP⌋ : ℚ)]).foldl
        (creature_UpdateFull env) c := by
  have hq : (0 : ℚ) ≤ dt / TIME_STEP := by
    apply div_nonneg h
    norm_num [TIME_STEP]
  have h2 : cTrunc (dt / TIME_STEP) = ⌊dt / TIME_STEP⌋ := cTrunc_of_nonneg _ hq
  unfold creature_Update fmodQ
  rw [List.foldl_append, foldl_replicate, h2]
  rfl

/-- C9 amended witness: the decomposition at cBounce with dt = 3/400
(one full step plus a half-step remainder). -/
theorem c9_update_decomposition_witness :
    (0 : ℚ) ≤ 3/400 ∧
    creature_Update env0 cBounce (3/400) =
      (List.replicate (⌊(3/400 : ℚ) / TIME_STEP⌋).toNat TIME_STEP ++
        [(3/400 : ℚ) - TIME_STEP * (⌊(3/400 : ℚ) / TIME_STEP⌋ : ℚ)]).foldl
        (creature_UpdateFull env0) cBounce := by
  refine ⟨by decide, ?_⟩
  exact c9_update_decomposition env0 cBounce (3/400) (by decide)

/-! ## C7 -/

/-- One muscle iteration never decreases the accumulated energy when the
time step is non-negative. -/
theorem muscleStep_energy_le (env : ENV) (dt : ℚ) (M : ℕ → MUSCLE)
    (h : 0 ≤ dt) (s : (ℕ → NODE) × ℚ) (i : ℕ) :
    s.2 ≤ (muscleStep env dt M s i).2 := by
  unfold muscleStep
  split
  · exact le_rfl
  · dsimp only
    split
    · exact le_add_of_nonneg_right (mul_nonneg h (abs_nonneg _))
    · exact le_rfl

/-- A muscle that is not contracting with non-ignorable strength spends no
energy in its iteration. -/
theorem muscleStep_energy_eq (env : ENV) (dt : ℚ) (M : ℕ → MUSCLE)
    (s : (ℕ → NODE) × ℚ) (i : ℕ)
    (h : ¬ ((M i).isContracted = true ∧ ¬ iszero env (M i).strength)) :
    (muscleStep env dt M s i).2 = s.2 := by
  unfold muscleStep
  split
  · rfl
  · rename_i hstr
    dsimp only
    split
    · rename_i hcon
      exact absurd ⟨hcon, hstr⟩ h
    · rfl

/-- The whole muscle loop never decreases the energy for a non-negative
time step. -/
theorem foldl_muscle_energy_le (env : ENV) (dt : ℚ) (M : ℕ → MUSCLE)
    (h : 0 ≤ dt) :
    ∀ (l : List ℕ) (s : (ℕ → NODE) × ℚ),
      s.2 ≤ (l.foldl (muscleStep env dt M) s).2 := by
  intro l
  induction l with
  | nil => intro s; exact le_rfl
  | cons x xs ih =>
    intro s
    exact le_trans (muscleStep_energy_le env dt M h s x) (ih _)

/-- The muscle loop spends no energy when no listed muscle is contracting
with non-ignorable strength. -/
theorem foldl_muscle_energy_eq (env : ENV) (dt : ℚ) (M : ℕ → MUSCLE) :
    ∀ (l : List ℕ) (s : (ℕ → NODE) × ℚ),
      (∀ i ∈ l, ¬ ((M i).isContracted = true ∧ ¬ iszero env (M i).strength)) →
      (l.foldl (muscleStep env dt M) s).2 = s.2 := by
  intro l
  induction l with
  | nil => intro s _; rfl
  | cons x xs ih =>
    intro s h
    rw [List.foldl_cons, ih _ (fun i hi => h i (List.mem_cons_of_mem x hi)),
      muscleStep_energy_eq env dt M s x (h x (List.mem_cons_self x xs))]

/-- creature_UpdateFull only rewrites the node array and the energy: the
muscle array is untouched. -/
theorem updateFull_muscles (env : ENV) (c : CREATURE) (dt : ℚ) :
    (creature_UpdateFull env c dt).muscles = c.muscles := rfl

/-- creature_UpdateFull keeps the muscle count. -/
theorem updateFull_nMuscles (env : ENV) (c : CREATURE) (dt : ℚ) :
    (creature_UpdateFull env c dt).nMuscles = c.nMuscles := rfl

/-- creature_UpdateFull never decreases the energy for a non-negative
time step. -/
theorem updateFull_energy_le (env : ENV) (c : CREATURE) (dt : ℚ)
    (h : 0 ≤ dt) : c.energy ≤ (creature_UpdateFull env c dt).energy := by
  exact foldl_muscle_energy_le env dt c.muscles h (List.range c.nMuscles)
    (fun i => if i < c.nNodes then
        { c.nodes i with acceleration := GRAVITY_VECTOR } else c.nodes i,
      c.energy)

/-- creature_UpdateFull keeps the energy exactly when no live muscle is
contracting with non-ignorable strength. -/
theorem updateFull_energy_eq (env : ENV) (c : CREATURE) (dt : ℚ)
    (h : ∀ i, i < c.nMuscles →
      ¬ ((c.muscles i).isContracted = true ∧ ¬ iszero env (c.muscles i).strength)) :
    (creature_UpdateFull env c dt).energy = c.energy := by
  exact foldl_muscle_energy_eq env dt c.muscles (List.range c.nMuscles)
    (fun i => if i < c.nNodes then
        { c.nodes i with acceleration := GRAVITY_VECTOR } else c.nodes i,
      c.energy)
    (fun i hi => h i (List.mem_range.1 hi))

/-- The fixed time step is positive. -/
theorem time_step_pos : (0 : ℚ) < TIME_STEP := by norm_num [TIME_STEP]

/-- The C fmod of non-negative x by positive m is non-negative. -/
theorem fmodQ_nonneg (x m : ℚ) (hx : 0 ≤ x) (hm : 0 < m) : 0 ≤ fmodQ x m := by
  unfold fmodQ
  rw [cTrunc_of_nonneg _ (div_nonneg hx hm.le)]
  have h1 : (⌊x / m⌋ : ℚ) ≤ x / m := Int.floor_le _
  have h2 : m * (⌊x / m⌋ : ℚ) ≤ m * (x / m) :=
    mul_le_mul_of_nonneg_left h1 hm.le
  have h3 : m * (x / m) = x := by field_simp
  linarith

/-- Iterating the fixed-step update never decreases the energy. -/
theorem iterate_updateFull_energy_le (env : ENV) :
    ∀ (n : ℕ) (a : CREATURE),
      a.energy ≤ ((fun x => creature_UpdateFull env x TIME_STEP)^[n] a).energy := by
  intro n
  induction n with
  | zero => intro a; exact le_rfl
  | succ k ih =>
    intro a
    rw [Function.iterate_succ_apply]
    exact le_trans (updateFull_energy_le env a TIME_STEP time_step_pos.le) (ih _)

/-- Iterating the fixed-step update keeps the muscle array. -/
theorem iterate_updateFull_muscles (env : ENV) :
    ∀ (n : ℕ) (a : CREATURE),
      ((fun x => creature_UpdateFull env x TIME_STEP)^[n] a).muscles = a.muscles := by
  intro n
  induction n with
  | zero => intro a; rfl
  | succ k ih =>
    intro a
    rw [Function.iterate_succ_apply]
    exact (ih _).trans (updateFull_muscles env a TIME_STEP)

/-- Iterating the fixed-step update keeps the muscle count. -/
theorem iterate_updateFull_nMuscles (env : ENV) :
    ∀ (n : ℕ) (a : CREATURE),
      ((fun x => creature_UpdateFull env x TIME_STEP)^[n] a).nMuscles = a.nMuscles := by
  intro n
  induction n with
  | zero => intro a; rfl
  | succ k ih =>
    intro a
    rw [Function.iterate_succ_apply]
    exact (ih _).trans (updateFull_nMuscles env a TIME_STEP)

/-- creature_Update keeps the muscle array. -/
theorem update_muscles (env : ENV) (c : CREATURE) (dt : ℚ) :
    (creature_Update env c dt).muscles = c.muscles := by
  unfold creature_Update
  exact iterate_updateFull_muscles env _ c

/-- creature_Update keeps the muscle count. -/
theorem update_nMuscles (env : ENV) (c : CREATURE) (dt : ℚ) :
    (creature_Update env c dt).nMuscles = c.nMuscles := by
  unfold creature_Update
  exact iterate_updateFull_nMuscles env _ c

/-- creature_Update never decreases the energy for a non-negative
duration (every sub-step is non-negative). -/
theorem update_energy_le (env : ENV) (c : CREATURE) (dt : ℚ) (h : 0 ≤ dt) :
    c.energy ≤ (creature_Update env c dt).energy := by
  unfold creature_Update
  exact le_trans (iterate_updateFull_energy_le env _ c)
    (updateFull_energy_le env _ _ (fmodQ_nonneg dt TIME_STEP h time_step_pos))

/-- creature_Update keeps the energy exactly when no live muscle is
contracting with non-ignorable strength (the flags are untouched by the
physics sub-steps). -/
theorem update_energy_eq (env : ENV) (c : CREATURE) (dt : ℚ)
    (h : ∀ i, i < c.nMuscles →
      ¬ ((c.muscles i).isContracted = true ∧ ¬ iszero env (c.muscles i).strength)) :
    (creature_Update env c dt).energy = c.energy := by
  unfold creature_Update
  have hiter : ∀ (n : ℕ),
      ((fun x => creature_UpdateFull env x TIME_STEP)^[n] c).energy = c.energy := by
    intro n
    induction n with
    | zero => rfl
    | succ k ih =>
      rw [Function.iterate_succ_apply']
      rw [updateFull_energy_eq env _ TIME_STEP]
      · exact ih
      · rw [iterate_updateFull_nMuscles, iterate_updateFull_muscles]
        exact h
  rw [updateFull_energy_eq env _ _, hiter]
  rw [iterate_updateFull_nMuscles, iterate_updateFull_muscles]
  exact h

/-- One physics call: either a raw creature_UpdateFull step or a
discretized creature_Update call. -/
inductive PhysCall where
  | full : ℚ → PhysCall
  | disc : ℚ → PhysCall

/-- The duration argument of a physics call. -/
def PhysCall.dt : PhysCall → ℚ
  | .full d => d
  | .disc d => d

/-- Apply one physics call to a creature. -/
def applyPhys (env : ENV) (c : CREATURE) : PhysCall → CREATURE
  | .full d => creature_UpdateFull env c d
  | .disc d => creature_Update env c d

/-- One physics call never decreases the energy when its duration is
non-negative. -/
theorem applyPhys_energy_le (env : ENV) (c : CREATURE) (s : PhysCall)
    (h : 0 ≤ s.dt) : c.energy ≤ (applyPhys env c s).energy := by
  cases s with
  | full d => exact updateFull_energy_le env c d h
  | disc d => exact update_energy_le env c d h

/-- C7: energy is non-decreasing across any finite sequence of
creature_Update / creature_UpdateFull calls with non-negative durations
(no creature_Reset in between), and a single call strictly increases the
energy only if at least one live muscle is contracting with strength not
within epsilon of zero when the call starts. -/
theorem c7_energy_monotone :
    (∀ (env : ENV) (c : CREATURE) (calls : List PhysCall),
        (∀ s ∈ calls, 0 ≤ s.dt) →
        c.energy ≤ (calls.foldl (applyPhys env) c).energy) ∧
    (∀ (env : ENV) (c : CREATURE) (s : PhysCall), 0 ≤ s.dt →
        c.energy < (applyPhys env c s).energy →
        ∃ i, i < c.nMuscles ∧ (c.muscles i).isContracted = true ∧
          ¬ iszero env (c.muscles i).strength) := by
  constructor
  · intro env c calls
    induction calls generalizing c with
    | nil => intro _; exact le_rfl
    | cons x xs ih =>
      intro h
      rw [List.foldl_cons]
      exact le_trans
        (applyPhys_energy_le env c x (h x (List.mem_cons_self x xs)))
        (ih _ (fun s hs => h s (List.mem_cons_of_mem x hs)))
  · intro env c s _ hlt
    by_contra hno
    push_neg at hno
    have heq : (applyPhys env c s).energy = c.energy := by
      have hall : ∀ i, i < c.nMuscles →
          ¬ ((c.muscles i).isContracted = true ∧
             ¬ iszero env (c.muscles i).strength) := by
        intro i hi hc
        exact hc.2 (hno i hi hc.1)
      cases s with
      | full d => exact updateFull_energy_eq env c d hall
      | disc d => exact update_energy_eq env c d hall
    rw [heq] at hlt
    exact lt_irrefl _ hlt

/-- A node resting at height 10 on the x-axis origin. -/
def gainNodeA : NODE :=
  { initial := ⟨0, 10, 0⟩, position := ⟨0, 10, 0⟩, velocity := vzero,
    acceleration := vzero, friction := 0 }

/-- A node resting at height 10, two meters along the x-axis. -/
def gainNodeB : NODE :=
  { initial := ⟨2, 10, 0⟩, position := ⟨2, 10, 0⟩, velocity := vzero,
    acceleration := vzero, friction := 0 }

/-- A two-node creature whose single muscle is contracting (target 1,
current length 2, strength 1), so a physics step spends energy. -/
def cGain : CREATURE :=
  { nNodes := 2, nMuscles := 1, clock := 0, energy := 0,
    nodes := fun i => if i = 0 then gainNodeA else gainNodeB,
    muscles := fun _ =>
      { first := 0, second := 1, extended := 2, contracted := 1,
        strength := 1, isContracted := true },
    behavior := fun _ => 0, fitness := 0 }

/-- C7 witness: both parts of the monotonicity theorem at the concrete
contracting creature cGain and a single full TIME_STEP call. -/
theorem c7_energy_monotone_witness :
    ((0 : ℚ) ≤ (PhysCall.full TIME_STEP).dt) ∧
    cGain.energy < (applyPhys env0 cGain (PhysCall.full TIME_STEP)).energy ∧
    (∃ i, i < cGain.nMuscles ∧ (cGain.muscles i).isContracted = true ∧
      ¬ iszero env0 (cGain.muscles i).strength) ∧
    cGain.energy ≤
      (([PhysCall.full TIME_STEP]).foldl (applyPhys env0) cGain).energy := by
  refine ⟨by decide, by decide, ?_, ?_⟩
  · exact c7_energy_monotone.2 env0 cGain (PhysCall.full TIME_STEP)
      (by decide) (by decide)
  · exact c7_energy_monotone.1 env0 cGain [PhysCall.full TIME_STEP] (by decide)

/-! ## C8 -/

/-- One creature_Animate call on a creature past the energy ceiling takes
the energy-death branch: the energy is unchanged (all muscles having been
relaxed, the physics sub-steps spend nothing), the muscle count is kept,
and every one of the MAX_MUSCLES muscle slots ends non-contracting. -/
theorem animate_dead (env : ENV) (c : CREATURE) (dt : ℚ)
    (hm : c.nMuscles ≤ MAX_MUSCLES) (he : MAX_ENERGY < c.energy) :
    (creature_Animate env c dt).energy = c.energy ∧
    (creature_Animate env c dt).nMuscles = c.nMuscles ∧
    (∀ i, i < MAX_MUSCLES →
      ((creature_Animate env c dt).muscles i).isContracted = false) := by
  unfold creature_Animate
  rw [if_pos he]
  refine ⟨?_, ?_, ?_⟩
  · refine update_energy_eq env _ dt ?_
    intro i hi hc
    have hlt : i < MAX_MUSCLES := lt_of_lt_of_le hi hm
    have : ((fun j => if j < MAX_MUSCLES then
        { c.muscles j with isContracted := false } else c.muscles j) i).isContracted
        = false := by
      dsimp only
      rw [if_pos hlt]
    exact absurd (this ▸ hc.1) (by decide)
  · exact update_nMuscles env _ dt
  · intro i hi
    rw [update_muscles]
    dsimp only
    rw [if_pos hi]

/-- C8: once a creature's energy exceeds the MAX_ENERGY ceiling, every
subsequent sequence of creature_Animate calls (with any durations and no
intervening creature_Reset) leaves the energy exactly unchanged -- in
particular never below the ceiling, so the dead state is permanent -- and
after at least one call every one of the MAX_MUSCLES muscle slots is
forced to the non-contracting state, so no toggle is ever applied. -/
theorem c8_energy_death :
    ∀ (env : ENV) (c : CREATURE) (dts : List ℚ),
      c.nMuscles ≤ MAX_MUSCLES → MAX_ENERGY < c.energy →
      (dts.foldl (creature_Animate env) c).energy = c.energy ∧
      MAX_ENERGY < (dts.foldl (creature_Animate env) c).energy ∧
      (dts ≠ [] → ∀ i, i < MAX_MUSCLES →
        ((dts.foldl (creature_Animate env) c).muscles i).isContracted = false) := by
  intro env c dts
  induction dts generalizing c with
  | nil =>
    intro _ he
    exact ⟨rfl, he, fun h => absurd rfl h⟩
  | cons d rest ih =>
    intro hm he
    have hd := animate_dead env c d hm he
    have hm2 : (creature_Animate env c d).nMuscles ≤ MAX_MUSCLES := by
      rw [hd.2.1]; exact hm
    have he2 : MAX_ENERGY < (creature_Animate env c d).energy := by
      rw [hd.1]; exact he
    obtain ⟨e1, e2, e3⟩ := ih (creature_Animate env c d) hm2 he2
    refine ⟨?_, ?_, ?_⟩
    · rw [List.foldl_cons, e1, hd.1]
    · rw [List.foldl_cons, e1, hd.1]; exact he
    · intro _ i hi
      rw [List.foldl_cons]
      rcases eq_or_ne rest [] with hr | hr
      · subst hr
        exact hd.2.2 i hi
      · exact e3 hr i hi

/-- A zero-muscle creature already past the energy ceiling. -/
def cDead : CREATURE := { blankC with energy := 70000 }

/-- C8 witness: the energy-death theorem at cDead over a one-second then
half-second animation sequence. -/
theorem c8_energy_death_witness :
    cDead.nMuscles ≤ MAX_MUSCLES ∧ MAX_ENERGY < cDead.energy ∧
    (((([1, 1/2] : List ℚ)).foldl (creature_Animate env0) cDead).energy = cDead.energy ∧
     MAX_ENERGY < ((([1, 1/2] : List ℚ)).foldl (creature_Animate env0) cDead).energy ∧
     ((([1, 1/2] : List ℚ)) ≠ [] → ∀ i, i < MAX_MUSCLES →
       (((([1, 1/2] : List ℚ)).foldl (creature_Animate env0) cDead).muscles i).isContracted = false)) := by
  refine ⟨by decide, by decide, ?_⟩
  exact c8_energy_death env0 cDead [1, 1/2] (by decide) (by decide)

/-! ## C10 -/

/-- One behavior action slot is well-formed: the MUSCLE_NONE sentinel or
an index inside the fixed-capacity muscles array. -/
def ActionOk (a : ℕ) : Prop := a = MUSCLE_NONE ∨ a < MAX_MUSCLES

/-- The behavior invariant: the live muscle count fits the array capacity
and every action slot is well-formed. -/
def BehaviorOk (c : CREATURE) : Prop :=
  c.nMuscles ≤ MAX_MUSCLES ∧ ∀ a, a < MAX_ACTIONS → ActionOk (c.behavior a)

/-- What randint guarantees about the creature_CreateRandom draws used by
the behavior invariant: the muscle count is at most MAX_MUSCLES
(randint(nNodes, MAX_MUSCLES)) and every action draw is at most
nMuscles - 1 (randint(0, nMuscles-1)). -/
def CreateOk (cd : CreateDraws) : Prop :=
  cd.nMusclesDraw ≤ MAX_MUSCLES ∧
  ∀ j, j < MAX_ACTIONS → cd.actMuscle j ≤ cd.nMusclesDraw - 1

instance (cd : CreateDraws) : Decidable (CreateOk cd) := by
  unfold CreateOk; infer_instance

/-- Fold preservation with access to list membership. -/
theorem foldl_preserve_mem {α β : Type} (f : α → β → α) (Q : α → Prop) :
    ∀ (l : List β), (∀ b ∈ l, ∀ a, Q a → Q (f a b)) →
      ∀ a, Q a → Q (l.foldl f a) := by
  intro l
  induction l with
  | nil => intro _ a ha; exact ha
  | cons x xs ih =>
    intro h a ha
    exact ih (fun b hb => h b (List.mem_cons_of_mem x hb)) _
      (h x (List.mem_cons_self x xs) a ha)

/-- creature_CreateRandom installs exactly the drawn muscle count. -/
theorem create_nMuscles (env : ENV) (cd : CreateDraws) (prev : CREATURE) :
    (creature_CreateRandom env cd prev).nMuscles = cd.nMusclesDraw := by
  exact foldl_preserve (fun a i => GenerateMuscle env (cd.muscleDraws i) i a)
    (fun x : CREATURE => x.nMuscles = cd.nMusclesDraw)
    (fun a b hb => hb) _ _
    (foldl_preserve (fun a i => GenerateNode (cd.nodeDraws i) i a)
      (fun x : CREATURE => x.nMuscles = cd.nMusclesDraw)
      (fun a b hb => hb) _
      ({ prev with nNodes := cd.nNodesDraw, nMuscles := cd.nMusclesDraw,
                   clock := 0, energy := 0, fitness := FITNESS_INVALID })
      rfl)

/-- A live behavior slot of creature_CreateRandom holds the drawn muscle
index under the action-density choice, or the sentinel. -/
theorem create_behavior (env : ENV) (cd : CreateDraws) (prev : CREATURE)
    (a : ℕ) (ha : a < MAX_ACTIONS) :
    (creature_CreateRandom env cd prev).behavior a =
      (if cd.actChoice a then cd.actMuscle a else MUSCLE_NONE) := by
  unfold creature_CreateRandom
  dsimp only
  rw [if_pos ha]

/-- creature_CreateRandom establishes the behavior invariant from
in-range draws. -/
theorem behaviorOk_create (env : ENV) (cd : CreateDraws) (prev : CREATURE)
    (hok : CreateOk cd) : BehaviorOk (creature_CreateRandom env cd prev) := by
  constructor
  · rw [create_nMuscles]; exact hok.1
  · intro a ha
    rw [create_behavior env cd prev a ha]
    by_cases hc : cd.actChoice a
    · rw [if_pos hc]
      right
      have h1 := hok.2 a ha
      have h2 := hok.1
      simp only [MAX_MUSCLES] at h2 ⊢
      omega
    · rw [if_neg hc]
      left
      rfl

/-- creature_Mutate preserves the behavior invariant for a selector drawn
from randint(0, N_MUTATIONS-1): no reachable case rewrites the behavior
(the two behavior cases sit at enum positions 10 and 11, beyond
N_MUTATIONS = 10), MUSCLE_ADD only grows nMuscles under its capacity
guard and MUSCLE_REMOVE only shrinks it. -/
theorem behaviorOk_mutate (env : ENV) (d : MutDraws) (c : CREATURE)
    (h : BehaviorOk c) (hm : d.mutation < N_MUTATIONS) :
    BehaviorOk (creature_Mutate env d c) := by
  have hm10 : d.mutation < 10 := hm
  have h1 : c.nMuscles ≤ 64 := h.1
  unfold creature_Mutate
  repeat' split
  all_goals first
    | exact h
    | (refine ⟨?_, h.2⟩;
       first
         | exact le_trans (Nat.sub_le _ _) h.1
         | (rename_i hg; exact hg))
    | (exfalso; omega)

/-- The pre-mutation child of creature_Breed satisfies the behavior
invariant when both parents do: the muscle count is one parent's, and
every behavior slot is one parent's slot via the crossover. -/
theorem behaviorOk_breedCore (bd : BreedDraws) (m f p : CREATURE)
    (hm : BehaviorOk m) (hf : BehaviorOk f) :
    BehaviorOk (breedCore bd m f p) := by
  constructor
  · show (if bd.coin then m.nMuscles else f.nMuscles) ≤ MAX_MUSCLES
    by_cases hc : bd.coin
    · rw [if_pos hc]; exact hm.1
    · rw [if_neg hc]; exact hf.1
  · intro a ha
    show ActionOk (if a < bd.crossover then m.behavior a else f.behavior a)
    by_cases hc : a < bd.crossover
    · rw [if_pos hc]; exact hm.2 a ha
    · rw [if_neg hc]; exact hf.2 a ha

/-- creature_Breed preserves the behavior invariant when every trailing
mutation selector is inside randint(0, N_MUTATIONS-1). -/
theorem behaviorOk_breed (env : ENV) (bd : BreedDraws) (m f p : CREATURE)
    (hm : BehaviorOk m) (hf : BehaviorOk f)
    (hd : ∀ d ∈ bd.muts, d.mutation < N_MUTATIONS) :
    BehaviorOk (creature_Breed env bd m f p) := by
  exact foldl_preserve_mem _ BehaviorOk bd.muts
    (fun d hdm a ha => behaviorOk_mutate env d a ha (hd d hdm))
    (breedCore bd m f p) (behaviorOk_breedCore bd m f p hm hf)

/-- The creatures the program can produce: a creature_CreateRandom output
from in-range draws, a creature_Mutate of a reachable creature with the
selector drawn from randint(0, N_MUTATIONS-1), or a creature_Breed of two
reachable parents (over any scratch slot) whose trailing mutation
selectors are likewise in range. -/
inductive ReachableCreature (env : ENV) : CREATURE → Prop where
  | create : ∀ (cd : CreateDraws) (prev : CREATURE), CreateOk cd →
      ReachableCreature env (creature_CreateRandom env cd prev)
  | mutate : ∀ (d : MutDraws) (c : CREATURE), ReachableCreature env c →
      d.mutation < N_MUTATIONS →
      ReachableCreature env (creature_Mutate env d c)
  | breed : ∀ (bd : BreedDraws) (m f prev : CREATURE),
      ReachableCreature env m → ReachableCreature env f →
      (∀ d ∈ bd.muts, d.mutation < N_MUTATIONS) →
      ReachableCreature env (creature_Breed env bd m f prev)

/-- Every reachable creature satisfies the behavior invariant. -/
theorem reachable_behaviorOk (env : ENV) (c : CREATURE)
    (h : ReachableCreature env c) : BehaviorOk c := by
  induction h with
  | create cd prev hok => exact behaviorOk_create env cd prev hok
  | mutate d c _ hm ih => exact behaviorOk_mutate env d c ih hm
  | breed bd m f prev _ _ hd ihm ihf => exact behaviorOk_breed env bd m f prev ihm ihf hd

/-- C10: for every creature produced only by creature_CreateRandom,
creature_Mutate and creature_Breed, every behavior action slot holds
either the MUSCLE_NONE sentinel or a muscle index strictly below
MAX_MUSCLES (the capacity of the muscles array), the live muscle count
also fits the capacity, and hence any slot that is not the sentinel -- the
only slots creature_Animate toggles -- indexes inside the fixed-capacity
muscles array, even though such an index may be at or beyond nMuscles (a
stale slot) after a muscle removal or a breeding crossover. -/
theorem c10_action_bounds (env : ENV) (c : CREATURE)
    (h : ReachableCreature env c) :
    c.nMuscles ≤ MAX_MUSCLES ∧
    (∀ a, a < MAX_ACTIONS →
      (c.behavior a = MUSCLE_NONE ∨ c.behavior a < MAX_MUSCLES)) ∧
    (∀ a, a < MAX_ACTIONS → c.behavior a ≠ MUSCLE_NONE →
      c.behavior a < MAX_MUSCLES) := by
  have hb := reachable_behaviorOk env c h
  refine ⟨hb.1, fun a ha => hb.2 a ha, fun a ha hne => ?_⟩
  rcases hb.2 a ha with h1 | h2
  · exact absurd h1 hne
  · exact h2

/-- C10 witness: the theorem at the concrete reachable creature cBase
(a creature_CreateRandom output from the in-range draws cd0). -/
theorem c10_action_bounds_witness :
    CreateOk cd0 ∧
    (cBase.nMuscles ≤ MAX_MUSCLES ∧
     (∀ a, a < MAX_ACTIONS →
       (cBase.behavior a = MUSCLE_NONE ∨ cBase.behavior a < MAX_MUSCLES)) ∧
     (∀ a, a < MAX_ACTIONS → cBase.behavior a ≠ MUSCLE_NONE →
       cBase.behavior a < MAX_MUSCLES)) := by
  refine ⟨by decide, ?_⟩
  exact c10_action_bounds env0 cBase
    (ReachableCreature.create cd0 blankC (by decide))

/-! ## C6 -/

/-- C6 counterexample: the claim says the worst individual (highest score)
is replaced by the first offspring.  In the four-slot run ex6g (scores
10, 20, 30, 40 on slots 0..3, nBreed = 2) the code replaces slot 2 (score
30, the fittest of the non-breeding remainder, because the min-heap pops
lowest scores first) with the first offspring 100, and the worst slot 3
(score 40) only with the second offspring 200 -- under the claim slot 3
would have received 100. -/
theorem c6_replacement_order_cex :
    ex6out.entities 2 = 100 ∧ ex6out.entities 3 = 200 ∧
    ex6out.entities 0 = 10 ∧ ex6out.entities 1 = 20 ∧
    ex6out.entities 3 ≠ 100 := by
  decide

/-- The score of slot i under the fitness callback (read before any slot
is overwritten: each slot is scored exactly once, before its update). -/
def scoreOf {E : Type} (fitnessF : E → E × ℚ) (g : GENETIC E) : ℕ → ℚ :=
  fun i => (fitnessF (g.entities i)).2

/-- The population after the scoring loop: every live slot is replaced by
the entity the fitness callback returned for it. -/
def scoredPop {E : Type} (fitnessF : E → E × ℚ) (g : GENETIC E) : ℕ → E :=
  fun i => if i < g.populationSize then (fitnessF (g.entities i)).1
    else g.entities i

/-- The number of individuals bred (and replaced) per generation. -/
def nBreedOf {E : Type} (g : GENETIC E) : ℕ := 2 * (g.populationSize / 4)

/-- The n-th newborn the breeding loop produces: the pair with base
b = 2 * (n / 2) breeds the scored entities of slots b and b + 1 over the
prior scratch contents, giving the son at even n and the daughter at odd
n. -/
def expNewborn {E : Type} (breedF : E → E → E → E → E × E)
    (pop1 nb0 : ℕ → E) (n : ℕ) : E :=
  let b := 2 * (n / 2)
  let r := breedF (pop1 b) (pop1 (b + 1)) (nb0 b) (nb0 (b + 1))
  if n % 2 = 0 then r.1 else r.2

/-- Sorted insertion of a maximal element appends it at the end. -/
theorem hInsert_snoc (x : ℚ × ℕ) :
    ∀ (l : HEAP), (∀ y ∈ l, y.1 ≤ x.1) → hInsert x l = l ++ [x] := by
  intro l
  induction l with
  | nil => intro _; rfl
  | cons y ys ih =>
    intro h
    unfold hInsert
    rw [if_pos (h y (List.mem_cons_self y ys))]
    rw [ih (fun z hz => h z (List.mem_cons_of_mem y hz))]
    rfl

/-- The scoring loop, on slots whose scores are monotone in the slot
index, updates every slot in place and builds the heap as the ascending
list of (score, slot) pairs. -/
theorem scorePhase_eq {E : Type} (fitnessF : E → E × ℚ) (pop0 : ℕ → E) :
    ∀ (n : ℕ),
      (∀ j, j < n → ∀ i, i ≤ j →
        (fitnessF (pop0 i)).2 ≤ (fitnessF (pop0 j)).2) →
      scorePhase fitnessF pop0 n =
        (fun i => if i < n then (fitnessF (pop0 i)).1 else pop0 i,
         (List.range n).map (fun i => ((fitnessF (pop0 i)).2, i))) := by
  intro n
  induction n with
  | zero =>
    intro _
    refine Prod.ext ?_ ?_
    · funext i
      show pop0 i = if i < 0 then (fitnessF (pop0 i)).1 else pop0 i
      rw [if_neg (Nat.not_lt_zero i)]
    · rfl
  | succ k ih =>
    intro hmono
    have hk := ih (fun j hj i hi => hmono j (Nat.lt_succ_of_lt hj) i hi)
    unfold scorePhase at hk ⊢
    rw [List.range_succ, List.foldl_append, hk, List.map_append]
    refine Prod.ext ?_ ?_
    · show (scoreFold fitnessF _ k).1 = _
      unfold scoreFold
      dsimp only
      rw [if_neg (lt_irrefl k)]
      funext i
      unfold aset
      by_cases hik : i = k
      · subst hik
        rw [if_pos rfl, if_pos (Nat.lt_succ_self i)]
      · rw [if_neg hik]
        show (if i < k then (fitnessF (pop0 i)).1 else pop0 i) = _
        by_cases hlt : i < k
        · rw [if_pos hlt, if_pos (Nat.lt_succ_of_lt hlt)]
        · rw [if_neg hlt, if_neg (by omega)]
    · show (scoreFold fitnessF _ k).2 = _
      unfold scoreFold heap_Push
      dsimp only
      rw [if_neg (lt_irrefl k)]
      refine hInsert_snoc _ _ ?_
      intro y hy
      rcases List.mem_map.1 hy with ⟨i, hi, rfl⟩
      exact hmono k (Nat.lt_succ_self k) i (Nat.le_of_lt (List.mem_range.1 hi))

/-- Unrolling one pair of the breeding loop. -/
theorem breedPhase_cons {E : Type} (breedF : E → E → E → E → E × E)
    (pop : ℕ → E) (k n : ℕ) (q1 q2 : ℚ) (i1 i2 : ℕ) (rest : HEAP)
    (nb : ℕ → E) :
    breedPhase breedF pop (k + 1) n ((q1, i1) :: (q2, i2) :: rest) nb =
      breedPhase breedF pop k (n + 2) rest
        (aset (aset nb n (breedF (pop i1) (pop i2) (nb n) (nb (n + 1))).1)
          (n + 1) (breedF (pop i1) (pop i2) (nb n) (nb (n + 1))).2) := rfl

/-- The breeding loop on the ascending heap: k pairs consume the 2k
fittest slots (mstart even), fill newborn slots mstart .. mstart + 2k - 1
with the expected offspring, and leave the heap tail. -/
theorem breedPhase_eq {E : Type} (breedF : E → E → E → E → E × E)
    (pop1 nb0 : ℕ → E) (s : ℕ → ℚ) :
    ∀ (k mstart len : ℕ) (nb : ℕ → E),
      2 * k ≤ len → mstart % 2 = 0 →
      (∀ j, mstart ≤ j → nb j = nb0 j) →
      breedPhase breedF pop1 k mstart
          ((List.range' mstart len).map (fun i => (s i, i))) nb =
        ((List.range' (mstart + 2 * k) (len - 2 * k)).map (fun i => (s i, i)),
         fun j => if mstart ≤ j ∧ j < mstart + 2 * k
           then expNewborn breedF pop1 nb0 j else nb j) := by
  intro k
  induction k with
  | zero =>
    intro mstart len nb _ _ _
    unfold breedPhase
    refine Prod.ext ?_ ?_
    · show (List.range' mstart len).map _ = _
      rw [Nat.mul_zero, Nat.add_zero, Nat.sub_zero]
    · funext j
      show nb j = if mstart ≤ j ∧ j < mstart + 2 * 0 then _ else nb j
      rw [if_neg (by omega)]
  | succ k ih =>
    intro mstart len nb hlen hev hagree
    obtain ⟨len2, rfl⟩ : ∃ l2, len = l2 + 2 := ⟨len - 2, by omega⟩
    rw [show len2 + 2 = (len2 + 1) + 1 from rfl, List.range'_succ, List.map_cons,
      List.range'_succ, List.map_cons, breedPhase_cons]
    rw [show mstart + 1 + 1 = mstart + 2 from rfl]
    rw [ih (mstart + 2) len2 _ (by omega) (by omega) ?agree]
    case agree =>
      intro j hj
      unfold aset
      rw [if_neg (by omega), if_neg (by omega)]
      exact hagree j (by omega)
    refine Prod.ext ?_ ?_
    · show (List.range' (mstart + 2 + 2 * k) (len2 - 2 * k)).map _ = _
      rw [show mstart + 2 + 2 * k = mstart + 2 * (k + 1) from by omega,
        show len2 - 2 * k = len2 + 2 - 2 * (k + 1) from by omega]
    · funext j
      show (if mstart + 2 ≤ j ∧ j < mstart + 2 + 2 * k
          then expNewborn breedF pop1 nb0 j
          else aset (aset nb mstart _) (mstart + 1) _ j) =
        (if mstart ≤ j ∧ j < mstart + 2 * (k + 1)
          then expNewborn breedF pop1 nb0 j else nb j)
      by_cases h1 : mstart + 2 ≤ j ∧ j < mstart + 2 + 2 * k
      · rw [if_pos h1, if_pos (by omega)]
      · rw [if_neg h1]
        by_cases h2 : j = mstart
        · subst h2
          rw [if_pos (by omega)]
          unfold aset
          rw [if_neg (by omega), if_pos rfl]
          unfold expNewborn
          dsimp only
          rw [show 2 * (j / 2) = j from by omega, if_pos (by omega),
            hagree j (le_refl j), hagree (j + 1) (by omega)]
        · by_cases h3 : j = mstart + 1
          · subst h3
            rw [if_pos (by omega)]
            unfold aset
            rw [if_pos rfl]
            unfold expNewborn
            dsimp only
            rw [show 2 * ((mstart + 1) / 2) = mstart from by omega,
              if_neg (by omega),
              hagree mstart (le_refl mstart), hagree (mstart + 1) (by omega)]
          · rw [if_neg (by omega)]
            unfold aset
            rw [if_neg h3, if_neg h2]

/-- Unrolling one kill of the replacement loop. -/
theorem replPhase_cons {E : Type} (nb : ℕ → E) (n r : ℕ) (q : ℚ) (kill : ℕ)
    (rest : HEAP) (pop : ℕ → E) :
    replPhase nb n (r + 1) ((q, kill) :: rest) pop =
      replPhase nb (n + 1) r rest (aset pop kill (nb n)) := rfl

/-- The replacement loop on the ascending heap: r pops overwrite slots
mstart .. mstart + r - 1 (fittest of the remainder first) with newborns
n0, n0 + 1, ... in pop order. -/
theorem replPhase_eq {E : Type} (nb : ℕ → E) (s : ℕ → ℚ) :
    ∀ (r n0 mstart len : ℕ) (pop : ℕ → E), r ≤ len →
      replPhase nb n0 r ((List.range' mstart len).map (fun i => (s i, i))) pop =
        ((List.range' (mstart + r) (len - r)).map (fun i => (s i, i)),
         fun j => if mstart ≤ j ∧ j < mstart + r then nb (n0 + (j - mstart))
           else pop j) := by
  intro r
  induction r with
  | zero =>
    intro n0 mstart len pop _
    unfold replPhase
    refine Prod.ext ?_ ?_
    · show (List.range' mstart len).map _ = _
      rw [Nat.add_zero, Nat.sub_zero]
    · funext j
      show pop j = if mstart ≤ j ∧ j < mstart + 0 then _ else pop j
      rw [if_neg (by omega)]
  | succ r ih =>
    intro n0 mstart len pop hlen
    obtain ⟨len1, rfl⟩ : ∃ l1, len = l1 + 1 := ⟨len - 1, by omega⟩
    rw [List.range'_succ, List.map_cons, replPhase_cons]
    rw [ih (n0 + 1) (mstart + 1) len1 _ (by omega)]
    refine Prod.ext ?_ ?_
    · show (List.range' (mstart + 1 + r) (len1 - r)).map _ = _
      rw [show mstart + 1 + r = mstart + (r + 1) from by omega,
        show len1 - r = len1 + 1 - (r + 1) from by omega]
    · funext j
      show (if mstart + 1 ≤ j ∧ j < mstart + 1 + r then nb (n0 + 1 + (j - (mstart + 1)))
          else aset pop mstart (nb n0) j) =
        (if mstart ≤ j ∧ j < mstart + (r + 1) then nb (n0 + (j - mstart)) else pop j)
      by_cases h1 : mstart + 1 ≤ j ∧ j < mstart + 1 + r
      · rw [if_pos h1, if_pos (by omega),
          show n0 + 1 + (j - (mstart + 1)) = n0 + (j - mstart) from by omega]
      · rw [if_neg h1]
        by_cases h2 : j = mstart
        · subst h2
          unfold aset
          rw [if_pos rfl, if_pos (by omega),
            show j - j = 0 from by omega, Nat.add_zero]
        · unfold aset
          rw [if_neg h2, if_neg (by omega)]

/-- Unrolling one randomization of the straggler loop. -/
theorem stragPhase_cons {E : Type} (randomF : E → E) (fuel : ℕ) (q : ℚ)
    (idx : ℕ) (rest : HEAP) (pop : ℕ → E) :
    stragPhase randomF (fuel + 1) ((q, idx) :: rest) pop =
      stragPhase randomF fuel rest (aset pop idx (randomF (pop idx))) := rfl

/-- The straggler loop drains the remaining ascending heap, overwriting
each listed slot with a brand-new random individual built over the slot's
prior contents. -/
theorem stragPhase_eq {E : Type} (randomF : E → E) (s : ℕ → ℚ) :
    ∀ (len mstart : ℕ) (pop : ℕ → E),
      stragPhase randomF len ((List.range' mstart len).map (fun i => (s i, i))) pop =
        fun j => if mstart ≤ j ∧ j < mstart + len then randomF (pop j)
          else pop j := by
  intro len
  induction len with
  | zero =>
    intro mstart pop
    funext j
    show pop j = if mstart ≤ j ∧ j < mstart + 0 then _ else pop j
    rw [if_neg (by omega)]
  | succ len ih =>
    intro mstart pop
    rw [List.range'_succ, List.map_cons, stragPhase_cons]
    rw [ih (mstart + 1) _]
    funext j
    show (if mstart + 1 ≤ j ∧ j < mstart + 1 + len
        then randomF (aset pop mstart (randomF (pop mstart)) j)
        else aset pop mstart (randomF (pop mstart)) j) =
      (if mstart ≤ j ∧ j < mstart + (len + 1) then randomF (pop j) else pop j)
    by_cases h1 : mstart + 1 ≤ j ∧ j < mstart + 1 + len
    · have hj : ¬ j = mstart := by omega
      rw [if_pos h1, if_pos (by omega)]
      unfold aset
      rw [if_neg hj]
    · rw [if_neg h1]
      by_cases h2 : j = mstart
      · subst h2
        unfold aset
        rw [if_pos rfl, if_pos (by omega)]
      · unfold aset
        rw [if_neg h2, if_neg (by omega)]

/-- The entities after one generation, as the composition of the four
phases (definitional). -/
theorem generation_entities {E : Type} (fitnessF : E → E × ℚ)
    (breedF : E → E → E → E → E × E) (randomF : E → E) (g : GENETIC E) :
    (genetic_Generation fitnessF breedF randomF g).entities =
      stragPhase randomF
        (replPhase
          (breedPhase breedF (scorePhase fitnessF g.entities g.populationSize).1
            (nBreedOf g / 2) 0 (scorePhase fitnessF g.entities g.populationSize).2
            g.newborn).2
          0 (nBreedOf g)
          (breedPhase breedF (scorePhase fitnessF g.entities g.populationSize).1
            (nBreedOf g / 2) 0 (scorePhase fitnessF g.entities g.populationSize).2
            g.newborn).1
          (scorePhase fitnessF g.entities g.populationSize).1).1.length
        (replPhase
          (breedPhase breedF (scorePhase fitnessF g.entities g.populationSize).1
            (nBreedOf g / 2) 0 (scorePhase fitnessF g.entities g.populationSize).2
            g.newborn).2
          0 (nBreedOf g)
          (breedPhase breedF (scorePhase fitnessF g.entities g.populationSize).1
            (nBreedOf g / 2) 0 (scorePhase fitnessF g.entities g.populationSize).2
            g.newborn).1
          (scorePhase fitnessF g.entities g.populationSize).1).1
        (replPhase
          (breedPhase breedF (scorePhase fitnessF g.entities g.populationSize).1
            (nBreedOf g / 2) 0 (scorePhase fitnessF g.entities g.populationSize).2
            g.newborn).2
          0 (nBreedOf g)
          (breedPhase breedF (scorePhase fitnessF g.entities g.populationSize).1
            (nBreedOf g / 2) 0 (scorePhase fitnessF g.entities g.populationSize).2
            g.newborn).1
          (scorePhase fitnessF g.entities g.populationSize).1).2 := rfl

/-- C6 amended: in genetic_Generation, when the population's fitness
scores are monotone in the slot index (so slot 0 is fittest, lower is
better), the fittest nBreed = 2*(populationSize/4) individuals survive in
place (updated only by their fitness call) and breed pairwise in fitness
order; the remaining individuals are popped from the ranking structure
and overwritten with the offspring one-for-one in pop order, which is
ascending score order -- the FITTEST individual of the non-breeding
remainder is replaced first and the worst individual last, not the worst
first as claimed; any slots still on the ranking structure after all
offspring are placed are overwritten with brand-new random individuals. -/
theorem c6_generation_amended {E : Type} (fitnessF : E → E × ℚ)
    (breedF : E → E → E → E → E × E) (randomF : E → E) (g : GENETIC E)
    (hmono : ∀ j, j < g.populationSize → ∀ i, i ≤ j →
      scoreOf fitnessF g i ≤ scoreOf fitnessF g j) :
    (∀ i, i < nBreedOf g →
      (genetic_Generation fitnessF breedF randomF g).entities i =
        scoredPop fitnessF g i) ∧
    (∀ n, n < nBreedOf g →
      (genetic_Generation fitnessF breedF randomF g).entities (nBreedOf g + n) =
        expNewborn breedF (scoredPop fitnessF g) g.newborn n) ∧
    (∀ m, 2 * nBreedOf g ≤ m → m < g.populationSize →
      (genetic_Generation fitnessF breedF randomF g).entities m =
        randomF (scoredPop fitnessF g m)) := by
  have hnb : nBreedOf g = 2 * (g.populationSize / 4) := rfl
  have hent : (genetic_Generation fitnessF breedF randomF g).entities =
      fun j =>
        if 0 + 2 * (nBreedOf g / 2) + nBreedOf g ≤ j ∧
            j < 0 + 2 * (nBreedOf g / 2) + nBreedOf g +
              (g.populationSize - 2 * (nBreedOf g / 2) - nBreedOf g) then
          randomF
            (if 0 + 2 * (nBreedOf g / 2) ≤ j ∧
                j < 0 + 2 * (nBreedOf g / 2) + nBreedOf g then
              if 0 ≤ 0 + (j - (0 + 2 * (nBreedOf g / 2))) ∧
                  0 + (j - (0 + 2 * (nBreedOf g / 2))) < 0 + 2 * (nBreedOf g / 2) then
                expNewborn breedF
                  (fun i => if i < g.populationSize then (fitnessF (g.entities i)).1
                    else g.entities i)
                  g.newborn (0 + (j - (0 + 2 * (nBreedOf g / 2))))
              else g.newborn (0 + (j - (0 + 2 * (nBreedOf g / 2))))
            else if j < g.populationSize then (fitnessF (g.entities j)).1
              else g.entities j)
        else
          if 0 + 2 * (nBreedOf g / 2) ≤ j ∧
              j < 0 + 2 * (nBreedOf g / 2) + nBreedOf g then
            if 0 ≤ 0 + (j - (0 + 2 * (nBreedOf g / 2))) ∧
                0 + (j - (0 + 2 * (nBreedOf g / 2))) < 0 + 2 * (nBreedOf g / 2) then
              expNewborn breedF
                (fun i => if i < g.populationSize then (fitnessF (g.entities i)).1
                  else g.entities i)
                g.newborn (0 + (j - (0 + 2 * (nBreedOf g / 2))))
            else g.newborn (0 + (j - (0 + 2 * (nBreedOf g / 2))))
          else if j < g.populationSize then (fitnessF (g.entities j)).1
            else g.entities j := by
    rw [generation_entities]
    rw [scorePhase_eq fitnessF g.entities g.populationSize hmono]
    dsimp only
    rw [List.range_eq_range']
    rw [breedPhase_eq breedF
      (fun i => if i < g.populationSize then (fitnessF (g.entities i)).1 else g.entities i)
      g.newborn (fun i => (fitnessF (g.entities i)).2)
      (nBreedOf g / 2) 0 g.populationSize g.newborn
      (by omega) (by omega) (fun j _ => rfl)]
    dsimp only
    rw [replPhase_eq _ (fun i => (fitnessF (g.entities i)).2)
      (nBreedOf g) 0 (0 + 2 * (nBreedOf g / 2)) (g.populationSize - 2 * (nBreedOf g / 2))
      _ (by omega)]
    dsimp only
    rw [List.length_map, List.length_range']
    rw [stragPhase_eq randomF (fun i => (fitnessF (g.entities i)).2)
      (g.populationSize - 2 * (nBreedOf g / 2) - nBreedOf g)
      (0 + 2 * (nBreedOf g / 2) + nBreedOf g) _]
  refine ⟨?_, ?_, ?_⟩
  · intro i hi
    rw [hent]
    dsimp only
    rw [if_neg (by omega), if_neg (by omega)]
    rfl
  · intro n hn
    rw [hent]
    dsimp only
    rw [if_neg (by omega), if_pos (by omega), if_pos (by omega)]
    rw [show 0 + (nBreedOf g + n - (0 + 2 * (nBreedOf g / 2))) = n from by omega]
    rfl
  · intro m hm1 hm2
    rw [hent]
    dsimp only
    rw [if_pos (by omega), if_neg (by omega)]
    rfl

/-- Witness for c6_generation_amended on the concrete four-slot run ex6g:
the first offspring lands in slot nBreed + 0. -/
theorem c6_generation_amended_witness :
    (genetic_Generation ex6fit ex6breed ex6rand ex6g).entities (nBreedOf ex6g + 0) =
      expNewborn ex6breed (scoredPop ex6fit ex6g) ex6g.newborn 0 :=
  (c6_generation_amended ex6fit ex6breed ex6rand ex6g (by decide)).2.1 0 (by decide)
